import Mathlib

/-!
Verification of `speech-commands/training/browser-fft/prep_wavs.py`.

The Python module prepares audio data for a browser-FFT speech-command model:
it loads 16-bit mono PCM wav files, resamples them to a target frequency,
truncates them to whole multiples of a frame size, writes the resulting raw
float samples to `.dat` files laid out in numbered subfolders, and extracts
random fixed-length noise windows from long background recordings.

Embedding conventions:
* numpy/scipy numeric values are embedded exactly, as `ℚ` (the claims under
  study are about lengths, truncation and range bounds, not float roundoff);
* a numpy array is an `NDArray`: its sample data as `List ℚ` plus its dtype
  tag, so that `astype` conversions in the source remain visible;
* file I/O is embedded as an association list from paths to the float
  contents written (`FS`); `open(..., 'wb')`+`struct.pack` becomes `fsWrite`,
  `os.remove` becomes `fsRemove`;
* Python exceptions (`ValueError`, the numpy `randint` error) are embedded as
  `Except String`;
* `np.random.randint(0, high, n)` (an external library call) is embedded by
  its documented contract: it fails when `high ≤ 0`, and otherwise returns
  draws taken from `{0, …, high − 1}` (`randintSupport`); the actual draws are
  passed in as an oracle parameter `draws`;
* `scipy.signal.resample(x, num)` (external) is embedded by its documented
  contract: a float64 output array of exactly `num` samples computed from
  `x`; the sample values themselves are modelled by nearest-neighbour
  interpolation, which none of the claims depend on.
-/

namespace PrepWavs

instance {ε α : Type} [DecidableEq ε] [DecidableEq α] :
    DecidableEq (Except ε α) := fun a b =>
  match a, b with
  | Except.ok x, Except.ok y =>
      if h : x = y then isTrue (by simp [h]) else isFalse (by simp [h])
  | Except.error x, Except.error y =>
      if h : x = y then isTrue (by simp [h]) else isFalse (by simp [h])
  | Except.ok _, Except.error _ => isFalse (by simp)
  | Except.error _, Except.ok _ => isFalse (by simp)

/-- Numpy dtype tags, so that `astype` calls in the source stay visible. -/
inductive DType where
  | int16
  | float32
  | float64
  deriving DecidableEq, Repr

/-- A numpy array: exact sample values plus the dtype tag. -/
structure NDArray where
  data : List ℚ
  dtype : DType
  deriving DecidableEq, Repr

/-- `read_as_floats` (prep_wavs.py lines 34–52), after the int16/mono asserts
have passed: `signal.astype('float32') / 32768.0`.  The input `samples` are
the int16 PCM samples delivered by `scipy.io.wavfile.read`. -/
def read_as_floats (samples : List Int) : NDArray :=
  ⟨samples.map (fun (s : Int) => (s : ℚ) / 32768), DType.float32⟩

/-- `scipy.signal.resample(x, num)` (external library), embedded by its
contract: output has exactly `num` samples and dtype float64 (FFT based).
Sample values are modelled by nearest-neighbour interpolation. -/
def resample (x : NDArray) (num : ℕ) : NDArray :=
  ⟨(List.range num).map (fun i => x.data.getD (i * x.data.length / num) 0),
   DType.float64⟩

/-- `int(math.floor(num_samples * target_fs / fs))` (prep_wavs.py line 67). -/
def targetNumSamples (numSamples : ℕ) (target_fs fs : ℚ) : ℤ :=
  ⌊(numSamples : ℚ) * target_fs / fs⌋

/-- `read_and_resample_as_floats` (prep_wavs.py lines 55–69). -/
def read_and_resample_as_floats (samples : List Int) (fs target_fs : ℚ) :
    NDArray :=
  let signal := read_as_floats samples
  let target := (targetNumSamples signal.data.length target_fs fs).toNat
  ⟨(resample signal target).data, DType.float32⟩

/-- The `ValueError` message raised at prep_wavs.py lines 131–134. -/
def tooShortMsg : String :=
  "Encountered an wav file which will be 0 samples long if truncated"

/-- `load_and_normalize_waveform` (prep_wavs.py lines 115–135):
`num_frames = int(len(signal) / frame_size)`, error when zero, otherwise
`signal[:frame_size * num_frames]`. -/
def load_and_normalize_waveform (samples : List Int) (fs target_fs : ℚ)
    (frame_size : ℕ) : Except String NDArray :=
  let signal := read_and_resample_as_floats samples fs target_fs
  let num_frames := signal.data.length / frame_size
  if num_frames = 0 then
    Except.error tooShortMsg
  else
    Except.ok ⟨signal.data.take (frame_size * num_frames), signal.dtype⟩

/-- A wav file as delivered to the converter: its basename, its sampling
frequency and its int16 PCM samples (one channel). -/
structure WavFile where
  name : String
  fs : ℚ
  samples : List Int
  deriving DecidableEq, Repr

/-- `convert` (prep_wavs.py lines 138–159).  The bytes written to
`out_data_path` (via `struct.pack`) and the returned
`len(waveform)` are both represented by the returned waveform; the caller
`convertStep` performs the write into the modelled filesystem. -/
def convert (f : WavFile) (target_fs : ℚ) (frame_size : ℕ) :
    Except String NDArray :=
  load_and_normalize_waveform f.samples f.fs target_fs frame_size

/-- The filesystem model: an association list from output paths to the
float samples written there. -/
abbrev FS := List (String × List ℚ)

/-- `os.remove` on the modelled filesystem. -/
def fsRemove (fs : FS) (p : String) : FS :=
  fs.filter (fun e => !(e.1 == p))

/-- `open(path, 'wb')` + `struct.pack('f' * len(w), *w)`: (over)write the
samples stored at `p`. -/
def fsWrite (fs : FS) (p : String) (c : List ℚ) : FS :=
  fsRemove fs p ++ [(p, c)]

/-- Content stored at path `p`, if any. -/
def fsLookup (fs : FS) (p : String) : Option (List ℚ) :=
  (fs.find? (fun e => e.1 == p)).map Prod.snd

/-- Index of the last `'.'` in a character list, if any. -/
def lastIndexOfDot : List Char → Option ℕ
  | [] => none
  | c :: rest =>
    match lastIndexOfDot rest with
    | some j => some (j + 1)
    | none => if c = '.' then some 0 else none

/-- `os.path.splitext` (Python standard library), for separator-free
basenames: split at the last dot, except when every character before that
dot is itself a dot (so `'.wav'` has no extension). -/
def splitext (s : String) : String × String :=
  match lastIndexOfDot s.toList with
  | none => (s, "")
  | some j =>
    if (s.toList.take j).all (fun c => c = '.') then (s, "")
    else (String.mk (s.toList.take j), String.mk (s.toList.drop j))

/-- Python `str.lower`, for ASCII file extensions. -/
def lowerStr (s : String) : String :=
  String.mk (s.toList.map Char.toLower)

/-- Output basename for one input wav file (prep_wavs.py lines 237–240):
`filename + '.dat' if extension_name.lower() == '.wav' else filename`. -/
def outputBasename (file_basename : String) : String :=
  let pr := splitext file_basename
  if lowerStr pr.2 = ".wav" then pr.1 ++ ".dat" else pr.1

/-- The decimal digit `d` as a character. -/
def digitChar (d : ℕ) : Char := Char.ofNat (48 + d)

/-- Decimal digit characters of `n`, most significant first. -/
def decimalChars (n : ℕ) : List Char :=
  if n = 0 then ['0'] else (Nat.digits 10 n).reverse.map digitChar

/-- Python `'%d' % n` for a natural number. -/
def natStr (n : ℕ) : String := String.mk (decimalChars n)

/-- Python `'%.5d' % n`: decimal representation zero-padded to width 5. -/
def pad5 (n : ℕ) : String :=
  String.mk (List.replicate (5 - (decimalChars n).length) '0' ++ decimalChars n)

/-- Output path for the `i`-th input file of a split (prep_wavs.py lines
232–241): `<out dir>/<floor(i / recordings_per_subfolder)>/<basename>`. -/
def outPathOf (outDir : String) (rps i : ℕ) (name : String) : String :=
  outDir ++ "/" ++ natStr (i / rps) ++ "/" ++ outputBasename name

/-- The body of the per-file loop of `convert_wav_files_in_dir`
(prep_wavs.py lines 231–247, except the counter bump at 248–251 which the
loop `convertSplitAux` performs): convert the file, write the waveform, and
delete the output again when `match_len` is given and differs from the
converted length.  A conversion error (`ValueError` from
`load_and_normalize_waveform`) propagates. -/
def convertStep (target_fs : ℚ) (frame_size : ℕ) (match_len : Option ℕ)
    (outDir : String) (rps i : ℕ) (f : WavFile) (fsys : FS) :
    Except String FS :=
  match convert f target_fs frame_size with
  | Except.error e => Except.error e
  | Except.ok wav =>
    let out_path := outPathOf outDir rps i f.name
    let fs1 := fsWrite fsys out_path wav.data
    match match_len with
    | some m => if m ≠ wav.data.length then Except.ok (fsRemove fs1 out_path)
                else Except.ok fs1
    | none => Except.ok fs1

/-- The per-split loop of `convert_wav_files_in_dir` (prep_wavs.py lines
231–251): process the files in order, threading the filesystem, and bump
the example counter once per processed file (the code increments it whether
or not the output was deleted for a length mismatch). -/
def convertSplitAux (target_fs : ℚ) (frame_size : ℕ) (match_len : Option ℕ)
    (outDir : String) (rps : ℕ) :
    ℕ → List WavFile → FS → ℕ → Except String (FS × ℕ)
  | _, [], fsys, count => Except.ok (fsys, count)
  | i, f :: rest, fsys, count =>
    match convertStep target_fs frame_size match_len outDir rps i f fsys with
    | Except.error e => Except.error e
    | Except.ok fs1 =>
      convertSplitAux target_fs frame_size match_len outDir rps
        (i + 1) rest fs1 (count + 1)

/-- `convert_wav_files_in_dir` (prep_wavs.py lines 162–253).  The random
train/test partition of the sorted wav list (lines 209–217) is taken as the
two parameters `train` and `test`; `test_output_dir = none` models
`test_split is None` (in which case the test loop is skipped, line 226–227).
Directory creation and the directory-shape preconditions (lines 189–207)
are outside the pure filesystem model.  Returns the final filesystem and
the pair `(num_train_examples, num_test_examples)`. -/
def convert_wav_files_in_dir (train test : List WavFile)
    (output_dir : String) (test_output_dir : Option String) (rps : ℕ)
    (target_fs : ℚ) (frame_size : ℕ) (match_len : Option ℕ) :
    Except String (FS × ℕ × ℕ) :=
  match convertSplitAux target_fs frame_size match_len output_dir rps
      0 train [] 0 with
  | Except.error e => Except.error e
  | Except.ok (fs1, nTrain) =>
    match test_output_dir with
    | none => Except.ok (fs1, nTrain, 0)
    | some td =>
      match convertSplitAux target_fs frame_size match_len td rps
          0 test fs1 0 with
      | Except.error e => Except.error e
      | Except.ok (fs2, nTest) => Except.ok (fs2, nTrain, nTest)

/-- `sample_length_0` (prep_wavs.py lines 94–95):
`int(np.ceil(sample_length / (target_fs / fs)))`. -/
def sampleLength0 (sample_length : ℕ) (fs target_fs : ℚ) : ℤ :=
  ⌈(sample_length : ℚ) / (target_fs / fs)⌉

/-- `max_begin_index` (prep_wavs.py line 96): `len(signal) - sample_length_0`. -/
def maxBeginIndex (sigLen : ℕ) (sl0 : ℤ) : ℤ := (sigLen : ℤ) - sl0

/-- Support of `np.random.randint(0, high, n)` (numpy, external): each draw
lies in `{0, …, high − 1}` — the upper bound is exclusive. -/
def randintSupport (high : ℤ) : Finset ℤ := Finset.Ico 0 high

/-- The `ValueError` numpy's `randint` raises when `high ≤ low = 0`. -/
def randintErrMsg : String := "low >= high"

/-- The per-draw loop of `generate_noise_examples` (prep_wavs.py lines
99–112): for the `i`-th draw `b`, write
`resample(signal[b : b + sample_length_0], sample_length)` to
`<noise out dir>/<floor((i+begin)/rps)>/<'%.5d' % (i+begin)>.dat`. -/
def noiseWriteLoop (sig : List ℚ) (sl0 sample_length rps file_begin : ℕ)
    (outDir : String) : ℕ → List ℤ → FS → FS
  | _, [], fsys => fsys
  | i, b :: rest, fsys =>
    let out_data_path := outDir ++ "/" ++ natStr ((i + file_begin) / rps)
      ++ "/" ++ pad5 (i + file_begin) ++ ".dat"
    let waveform := (sig.drop b.toNat).take sl0
    let resampled := resample ⟨waveform, DType.float32⟩ sample_length
    noiseWriteLoop sig sl0 sample_length rps file_begin outDir
      (i + 1) rest (fsWrite fsys out_data_path resampled.data)

/-- `generate_noise_examples` (prep_wavs.py lines 72–112).  The numpy array
`begin_indices = np.random.randint(0, max_begin_index, num_noise_examples)`
is modelled by the oracle parameter `draws` (one entry per noise example);
`randint` raises before anything is written when `max_begin_index ≤ 0`. -/
def generate_noise_examples (samples : List Int) (fs target_fs : ℚ)
    (rps sample_length : ℕ) (noise_out_dir : String)
    (file_begin_index : ℕ) (draws : List ℤ) (fsys : FS) :
    Except String FS :=
  let signal := read_as_floats samples
  let sl0 := sampleLength0 sample_length fs target_fs
  let maxBegin := maxBeginIndex signal.data.length sl0
  if maxBegin ≤ 0 then Except.error randintErrMsg
  else
    Except.ok (noiseWriteLoop signal.data sl0.toNat sample_length rps
      file_begin_index noise_out_dir 0 draws fsys)

/-- Does the string consist of exactly five decimal digits followed by the
extension `.dat`?  (The layout the spec asserts for every written file.) -/
def isFiveDigitDat (s : String) : Bool :=
  let cs := s.toList
  (cs.length == 9) && (cs.take 5).all Char.isDigit && (cs.drop 5 == ".dat".toList)

example :
    load_and_normalize_waveform [0, 0, 0, 0] 1 1 2 =
      Except.ok ⟨[0, 0, 0, 0], DType.float32⟩ := by
  simp [load_and_normalize_waveform, read_and_resample_as_floats, read_as_floats,
    resample, targetNumSamples, List.range_succ]

example :
    load_and_normalize_waveform [0, 0, 0, 0] 1 1 5 = Except.error tooShortMsg := by
  simp [load_and_normalize_waveform, read_and_resample_as_floats, read_as_floats,
    resample, targetNumSamples, List.range_succ]

example : outputBasename "sample.wav" = "sample.dat" := by decide

example : isFiveDigitDat "00000.dat" = true := by decide

example : isFiveDigitDat "sample.dat" = false := by decide

@[simp] theorem read_as_floats_data_length (samples : List Int) :
    (read_as_floats samples).data.length = samples.length := by
  simp only [read_as_floats, List.length_map]

@[simp] theorem resample_data_length (x : NDArray) (num : ℕ) :
    (resample x num).data.length = num := by
  simp [resample]

theorem read_and_resample_data_length (samples : List Int) (fs tfs : ℚ) :
    (read_and_resample_as_floats samples fs tfs).data.length
      = (targetNumSamples samples.length tfs fs).toNat := by
  simp [read_and_resample_as_floats]

/-- C3: for an input of `N` samples at source rate `fs` and target rate
`target_fs` (both positive), `read_and_resample_as_floats` returns an array
of exactly `⌊N · target_fs / fs⌋` samples, of dtype float32. -/
theorem c3_resample_length_and_dtype (samples : List Int) (fs tfs : ℚ)
    (hfs : 0 < fs) (htfs : 0 ≤ tfs) :
    ((read_and_resample_as_floats samples fs tfs).data.length : ℤ)
        = ⌊(samples.length : ℚ) * tfs / fs⌋
      ∧ (read_and_resample_as_floats samples fs tfs).dtype = DType.float32 := by
  refine ⟨?_, rfl⟩
  rw [read_and_resample_data_length, targetNumSamples,
    Int.toNat_of_nonneg (Int.floor_nonneg.mpr (by positivity))]

/-- Witness for C3 at a concrete input: 3 samples resampled from rate 2 to
rate 3 give `⌊3·3/2⌋ = 4` samples. -/
theorem c3_witness :
    (0:ℚ) < 2 ∧ (0:ℚ) ≤ 3
    ∧ (((read_and_resample_as_floats [0, 0, 0] 2 3).data.length : ℤ)
          = ⌊(([0, 0, 0] : List Int).length : ℚ) * 3 / 2⌋
        ∧ (read_and_resample_as_floats [0, 0, 0] 2 3).dtype = DType.float32) :=
  ⟨by norm_num, by norm_num,
    c3_resample_length_and_dtype [0, 0, 0] 2 3 (by norm_num) (by norm_num)⟩

/-- C4: when the resampled signal has `L ≥ F` samples (`F > 0` the frame
size), `load_and_normalize_waveform` returns exactly the first
`⌊L / F⌋ · F` samples of the resampled signal, and when `F ∣ L` that
truncation is the whole signal. -/
theorem c4_truncation (samples : List Int) (fs tfs : ℚ) (F : ℕ)
    (hF : 0 < F)
    (hL : F ≤ (read_and_resample_as_floats samples fs tfs).data.length) :
    load_and_normalize_waveform samples fs tfs F =
      Except.ok ⟨(read_and_resample_as_floats samples fs tfs).data.take
          ((read_and_resample_as_floats samples fs tfs).data.length / F * F),
        DType.float32⟩
    ∧ (F ∣ (read_and_resample_as_floats samples fs tfs).data.length →
        (read_and_resample_as_floats samples fs tfs).data.take
            ((read_and_resample_as_floats samples fs tfs).data.length / F * F)
          = (read_and_resample_as_floats samples fs tfs).data) := by
  have h0 : (read_and_resample_as_floats samples fs tfs).data.length / F ≠ 0 :=
    (Nat.div_pos hL hF).ne'
  refine ⟨?_, fun hdvd => ?_⟩
  · simp only [load_and_normalize_waveform]
    rw [if_neg h0, Nat.mul_comm]
    rfl
  · rw [Nat.div_mul_cancel hdvd, List.take_length]

/-- Witness for C4 at a concrete input: 4 resampled samples with frame size
2 (4 is a multiple of 2, so truncation keeps all samples). -/
theorem c4_witness :
    0 < 2
    ∧ 2 ≤ (read_and_resample_as_floats [0, 0, 0, 0] 1 1).data.length
    ∧ (load_and_normalize_waveform [0, 0, 0, 0] 1 1 2 =
        Except.ok ⟨(read_and_resample_as_floats [0, 0, 0, 0] 1 1).data.take
            ((read_and_resample_as_floats [0, 0, 0, 0] 1 1).data.length / 2 * 2),
          DType.float32⟩
      ∧ (2 ∣ (read_and_resample_as_floats [0, 0, 0, 0] 1 1).data.length →
          (read_and_resample_as_floats [0, 0, 0, 0] 1 1).data.take
              ((read_and_resample_as_floats [0, 0, 0, 0] 1 1).data.length / 2 * 2)
            = (read_and_resample_as_floats [0, 0, 0, 0] 1 1).data)) :=
  ⟨by norm_num,
   by rw [read_and_resample_data_length, targetNumSamples]; norm_num,
   c4_truncation [0, 0, 0, 0] 1 1 2 (by norm_num)
     (by rw [read_and_resample_data_length, targetNumSamples]; norm_num)⟩

/-- C5: `load_and_normalize_waveform` fails with its descriptive
`ValueError` message exactly when the resampled signal is shorter than the
frame size, and succeeds exactly when it is at least one frame long. -/
theorem c5_error_iff_too_short (samples : List Int) (fs tfs : ℚ) (F : ℕ)
    (hF : 0 < F) :
    (load_and_normalize_waveform samples fs tfs F = Except.error tooShortMsg
      ↔ (read_and_resample_as_floats samples fs tfs).data.length < F)
    ∧ ((load_and_normalize_waveform samples fs tfs F).isOk = true
      ↔ F ≤ (read_and_resample_as_floats samples fs tfs).data.length) := by
  have hiff : ((read_and_resample_as_floats samples fs tfs).data.length / F = 0)
      ↔ (read_and_resample_as_floats samples fs tfs).data.length < F :=
    Nat.div_eq_zero_iff hF
  by_cases hc : (read_and_resample_as_floats samples fs tfs).data.length < F
  · have h0 : (read_and_resample_as_floats samples fs tfs).data.length / F = 0 :=
      hiff.mpr hc
    simp only [load_and_normalize_waveform, h0, if_pos]
    refine ⟨by simp [hc], ?_⟩
    simp only [Except.isOk, Except.toBool]
    constructor
    · intro h; cases h
    · intro h; omega
  · have h0 : ¬((read_and_resample_as_floats samples fs tfs).data.length / F = 0) :=
      fun h => hc (hiff.mp h)
    simp only [load_and_normalize_waveform]
    rw [if_neg h0]
    refine ⟨by simp [hc], ?_⟩
    simp only [Except.isOk, Except.toBool]
    constructor
    · intro _; omega
    · intro _; trivial

/-- Witness for C5 at a concrete input: 4 resampled samples with frame size
5 are too short and raise; with frame size 2 loading succeeds. -/
theorem c5_witness :
    0 < 5
    ∧ (load_and_normalize_waveform [0, 0, 0, 0] 1 1 5 = Except.error tooShortMsg
        ↔ (read_and_resample_as_floats [0, 0, 0, 0] 1 1).data.length < 5)
    ∧ ((load_and_normalize_waveform [0, 0, 0, 0] 1 1 5).isOk = true
        ↔ 5 ≤ (read_and_resample_as_floats [0, 0, 0, 0] 1 1).data.length) :=
  ⟨by norm_num,
   (c5_error_iff_too_short [0, 0, 0, 0] 1 1 5 (by norm_num)).1,
   (c5_error_iff_too_short [0, 0, 0, 0] 1 1 5 (by norm_num)).2⟩

/-- C6: on any valid int16 sample list, `read_as_floats` keeps the sample
count and produces values `s / 32768` that all lie in `[-1, 1]`. -/
theorem c6_read_as_floats_bounds (samples : List Int)
    (h : ∀ s ∈ samples, -32768 ≤ s ∧ s ≤ 32767) :
    (read_as_floats samples).data.length = samples.length
    ∧ ∀ x ∈ (read_as_floats samples).data, -1 ≤ x ∧ x ≤ 1 := by
  refine ⟨read_as_floats_data_length samples, ?_⟩
  intro x hx
  have hx' : x ∈ samples.map (fun (s : Int) => (s : ℚ) / 32768) := hx
  rw [List.mem_map] at hx'
  obtain ⟨s, hs, rfl⟩ := hx'
  obtain ⟨h1, h2⟩ := h s hs
  have hlo : (-32768 : ℚ) ≤ (s : ℚ) := by exact_mod_cast h1
  have hhi : (s : ℚ) ≤ 32767 := by exact_mod_cast h2
  constructor
  · rw [le_div_iff₀ (by norm_num : (0:ℚ) < 32768)]
    linarith
  · rw [div_le_one₀ (by norm_num : (0:ℚ) < 32768)]
    linarith

/-- Witness for C6 at a concrete input holding both int16 extremes. -/
theorem c6_witness :
    (∀ s ∈ ([-32768, 32767, 0] : List Int), -32768 ≤ s ∧ s ≤ 32767)
    ∧ ((read_as_floats [-32768, 32767, 0]).data.length
          = ([-32768, 32767, 0] : List Int).length
        ∧ ∀ x ∈ (read_as_floats [-32768, 32767, 0]).data, -1 ≤ x ∧ x ≤ 1) :=
  ⟨by decide, c6_read_as_floats_bounds [-32768, 32767, 0] (by decide)⟩

theorem fsLookup_cons (e : String × List ℚ) (rest : FS) (q : String) :
    fsLookup (e :: rest) q = if e.1 = q then some e.2 else fsLookup rest q := by
  by_cases h : e.1 = q
  · rw [fsLookup, List.find?_cons_of_pos _ (by simpa using h), if_pos h]
    rfl
  · rw [fsLookup, List.find?_cons_of_neg _ (by simpa using h), if_neg h]
    rfl

theorem fsLookup_fsRemove (fs : FS) (p q : String) :
    fsLookup (fsRemove fs p) q = if q = p then none else fsLookup fs q := by
  induction fs with
  | nil => simp [fsLookup, fsRemove]
  | cons e rest ih =>
    by_cases h : e.1 = p
    · rw [fsRemove, List.filter_cons_of_neg (by simp [h]),
        show (List.filter (fun x => !(x.1 == p)) rest : FS) = fsRemove rest p from rfl,
        ih]
      by_cases hq : q = p
      · rw [if_pos hq, if_pos hq]
      · rw [if_neg hq, if_neg hq, fsLookup_cons,
          if_neg (show ¬(e.1 = q) from by rw [h]; exact fun hh => hq hh.symm)]
    · rw [fsRemove, List.filter_cons_of_pos (by simp [h]), fsLookup_cons,
        fsLookup_cons]
      by_cases he : e.1 = q
      · have hq : ¬(q = p) := fun hh => h (he.trans hh)
        rw [if_pos he, if_neg hq, if_pos he]
      · rw [if_neg he, if_neg he,
          show (List.filter (fun x => !(x.1 == p)) rest : FS) = fsRemove rest p from rfl,
          ih]

theorem fsLookup_fsWrite (fs : FS) (p : String) (c : List ℚ) (q : String) :
    fsLookup (fsWrite fs p c) q = if q = p then some c else fsLookup fs q := by
  rw [fsWrite, fsLookup, List.find?_append]
  by_cases hq : q = p
  · have h1 : List.find? (fun e => e.1 == q) (fsRemove fs p) = none := by
      have h2 := fsLookup_fsRemove fs p q
      rw [if_pos hq, fsLookup, Option.map_eq_none'] at h2
      exact h2
    rw [h1, Option.none_or, if_pos hq, List.find?_cons_of_pos _ (by simpa using hq.symm)]
    rfl
  · have h2 : List.find? (fun e => e.1 == q) [(p, c)] = none := by
      rw [List.find?_cons_of_neg _ (by simpa using fun hh => hq hh.symm)]
      rfl
    rw [h2, Option.or_none, if_neg hq]
    have h3 := fsLookup_fsRemove fs p q
    rw [if_neg hq] at h3
    exact h3

theorem fsRemove_fsWrite_self (fs : FS) (p : String) (c : List ℚ) :
    fsRemove (fsWrite fs p c) p = fsRemove fs p := by
  rw [fsWrite, fsRemove, List.filter_append,
    show (fsRemove fs p : FS) = List.filter (fun e => !(e.1 == p)) fs from rfl,
    List.filter_filter]
  simp [fsRemove]

theorem fsRemove_eq_self_of_lookup_none (fs : FS) (p : String)
    (h : fsLookup fs p = none) : fsRemove fs p = fs := by
  induction fs with
  | nil => rfl
  | cons e rest ih =>
    rw [fsLookup_cons] at h
    by_cases he : e.1 = p
    · rw [if_pos he] at h
      cases h
    · rw [if_neg he] at h
      rw [fsRemove, List.filter_cons_of_pos (by simp [he]),
        show (List.filter (fun x => !(x.1 == p)) rest : FS) = fsRemove rest p from rfl,
        ih h]

theorem mem_fsWrite (fs : FS) (p : String) (c : List ℚ) (e : String × List ℚ) :
    e ∈ fsWrite fs p c ↔ e ∈ fsRemove fs p ∨ e = (p, c) := by
  simp [fsWrite]

theorem mem_of_mem_fsRemove (fs : FS) (p : String) (e : String × List ℚ)
    (h : e ∈ fsRemove fs p) : e ∈ fs :=
  List.mem_of_mem_filter h

theorem convert_ok_shape (f : WavFile) (tfs : ℚ) (F : ℕ) (wav : NDArray)
    (h : convert f tfs F = Except.ok wav) :
    wav.data.length
      = F * ((read_and_resample_as_floats f.samples f.fs tfs).data.length / F) := by
  rw [convert, load_and_normalize_waveform] at h
  by_cases h0 : (read_and_resample_as_floats f.samples f.fs tfs).data.length / F = 0
  · rw [if_pos h0] at h
    cases h
  · rw [if_neg h0] at h
    rw [Except.ok.injEq] at h
    subst h
    rw [List.length_take]
    refine min_eq_left ?_
    rw [Nat.mul_comm]
    exact Nat.div_mul_le_self _ _

theorem convert_ok_dvd (f : WavFile) (tfs : ℚ) (F : ℕ) (wav : NDArray)
    (h : convert f tfs F = Except.ok wav) : F ∣ wav.data.length := by
  rw [convert_ok_shape f tfs F wav h]
  exact Dvd.intro _ rfl

/-- C7: in the batch converter loop, a `match_len` mismatch is non-fatal and
only deletes the file just written: the step succeeds, the resulting
filesystem holds nothing at the offending output path, every other path is
untouched, the loop goes on with the remaining files and a bumped counter,
while a conversion error (the only other failure inside the loop body)
propagates and aborts the step. -/
theorem c7_mismatch_sole_recoverable (tfs : ℚ) (F m : ℕ) (outDir : String)
    (rps i : ℕ) (f : WavFile) (fsys : FS) (wav : NDArray)
    (rest : List WavFile) (count : ℕ)
    (hok : convert f tfs F = Except.ok wav)
    (hmm : wav.data.length ≠ m) :
    convertStep tfs F (some m) outDir rps i f fsys
      = Except.ok (fsRemove (fsWrite fsys (outPathOf outDir rps i f.name) wav.data)
          (outPathOf outDir rps i f.name))
    ∧ fsLookup (fsRemove (fsWrite fsys (outPathOf outDir rps i f.name) wav.data)
          (outPathOf outDir rps i f.name)) (outPathOf outDir rps i f.name) = none
    ∧ (∀ q, q ≠ outPathOf outDir rps i f.name →
        fsLookup (fsRemove (fsWrite fsys (outPathOf outDir rps i f.name) wav.data)
            (outPathOf outDir rps i f.name)) q = fsLookup fsys q)
    ∧ convertSplitAux tfs F (some m) outDir rps i (f :: rest) fsys count
      = convertSplitAux tfs F (some m) outDir rps (i + 1) rest
          (fsRemove (fsWrite fsys (outPathOf outDir rps i f.name) wav.data)
            (outPathOf outDir rps i f.name)) (count + 1)
    ∧ (∀ (g : WavFile) (j : ℕ) (fs2 : FS) (e : String),
        convert g tfs F = Except.error e →
        convertStep tfs F (some m) outDir rps j g fs2 = Except.error e) := by
  have hstep : convertStep tfs F (some m) outDir rps i f fsys
      = Except.ok (fsRemove (fsWrite fsys (outPathOf outDir rps i f.name) wav.data)
          (outPathOf outDir rps i f.name)) := by
    simp only [convertStep, hok]
    rw [if_pos (Ne.symm hmm)]
  refine ⟨hstep, ?_, ?_, ?_, ?_⟩
  · rw [fsLookup_fsRemove, if_pos rfl]
  · intro q hq
    rw [fsLookup_fsRemove, if_neg hq, fsLookup_fsWrite, if_neg hq]
  · rw [convertSplitAux, hstep]
  · intro g j fs2 e he
    simp only [convertStep, he]

/-- Witness for C7 at a concrete input: a 4-sample conversion against
`match_len = 5` is a mismatch. -/
theorem c7_witness :
    convert ⟨"a.wav", 1, [0, 0, 0, 0]⟩ 1 2
        = Except.ok ⟨[0, 0, 0, 0], DType.float32⟩
    ∧ ([0, 0, 0, 0] : List ℚ).length ≠ 5
    ∧ (convertStep 1 2 (some 5) "out" 500 0 ⟨"a.wav", 1, [0, 0, 0, 0]⟩ []
        = Except.ok (fsRemove
            (fsWrite [] (outPathOf "out" 500 0 "a.wav") [0, 0, 0, 0])
            (outPathOf "out" 500 0 "a.wav"))
      ∧ fsLookup (fsRemove
            (fsWrite [] (outPathOf "out" 500 0 "a.wav") [0, 0, 0, 0])
            (outPathOf "out" 500 0 "a.wav")) (outPathOf "out" 500 0 "a.wav") = none
      ∧ (∀ q, q ≠ outPathOf "out" 500 0 "a.wav" →
          fsLookup (fsRemove
              (fsWrite [] (outPathOf "out" 500 0 "a.wav") [0, 0, 0, 0])
              (outPathOf "out" 500 0 "a.wav")) q = fsLookup [] q)
      ∧ convertSplitAux 1 2 (some 5) "out" 500 0 [⟨"a.wav", 1, [0, 0, 0, 0]⟩] [] 0
        = convertSplitAux 1 2 (some 5) "out" 500 1 []
            (fsRemove (fsWrite [] (outPathOf "out" 500 0 "a.wav") [0, 0, 0, 0])
              (outPathOf "out" 500 0 "a.wav")) 1
      ∧ (∀ (g : WavFile) (j : ℕ) (fs2 : FS) (e : String),
          convert g 1 2 = Except.error e →
          convertStep 1 2 (some 5) "out" 500 j g fs2 = Except.error e)) := by
  have hok : convert ⟨"a.wav", 1, [0, 0, 0, 0]⟩ 1 2
      = Except.ok ⟨[0, 0, 0, 0], DType.float32⟩ := by
    simp [convert, load_and_normalize_waveform, read_and_resample_as_floats,
      read_as_floats, resample, targetNumSamples, List.range_succ]
  exact ⟨hok, by norm_num,
    c7_mismatch_sole_recoverable 1 2 5 "out" 500 0 ⟨"a.wav", 1, [0, 0, 0, 0]⟩ []
      ⟨[0, 0, 0, 0], DType.float32⟩ [] 0 hok (by norm_num)⟩

/-- C1: the counters returned by `convert_wav_files_in_dir` do NOT equal the
number of example files present on disk: with a single input wav whose
converted length 4 mismatches `match_len = 5`, the output file is deleted
(the final filesystem is empty) yet the function still returns
`num_train_examples = 1` — the code increments its counters at lines
248–251 even after the `os.remove` at line 247, contradicting its own
docstring and its "Skipped" log message. -/
theorem c1_count_includes_deleted_file :
    convert_wav_files_in_dir [⟨"a.wav", 1, [0, 0, 0, 0]⟩] [] "out" none 500 1 2
        (some 5)
      = Except.ok ([], 1, 0) := by
  simp [convert_wav_files_in_dir, convertSplitAux, convertStep, convert,
    load_and_normalize_waveform, read_and_resample_as_floats, read_as_floats,
    resample, targetNumSamples, List.range_succ, fsWrite, fsRemove]

/-- The length invariant C8 asserts of every persisted entry: a whole
number of frames, and exactly the match length when that filter is on. -/
def entryInv (F : ℕ) (ml : Option ℕ) (e : String × List ℚ) : Prop :=
  F ∣ e.2.length ∧ ∀ m, ml = some m → e.2.length = m

theorem convertStep_inv (tfs : ℚ) (F : ℕ) (ml : Option ℕ) (outDir : String)
    (rps i : ℕ) (f : WavFile) (fsys fs1 : FS)
    (hstep : convertStep tfs F ml outDir rps i f fsys = Except.ok fs1)
    (hinv : ∀ e ∈ fsys, entryInv F ml e) :
    ∀ e ∈ fs1, entryInv F ml e := by
  cases hc : convert f tfs F with
  | error err =>
    simp only [convertStep, hc] at hstep
    cases hstep
  | ok wav =>
    have hd : F ∣ wav.data.length := convert_ok_dvd f tfs F wav hc
    cases ml with
    | none =>
      simp only [convertStep, hc] at hstep
      rw [Except.ok.injEq] at hstep
      subst hstep
      intro e he
      rcases (mem_fsWrite _ _ _ _).mp he with h | h
      · exact hinv e (mem_of_mem_fsRemove _ _ _ h)
      · subst h
        exact ⟨hd, fun m2 hm2 => by cases hm2⟩
    | some m =>
      simp only [convertStep, hc] at hstep
      by_cases hm : m ≠ wav.data.length
      · rw [if_pos hm, Except.ok.injEq] at hstep
        subst hstep
        intro e he
        rw [fsRemove_fsWrite_self] at he
        exact hinv e (mem_of_mem_fsRemove _ _ _ he)
      · rw [if_neg hm, Except.ok.injEq] at hstep
        subst hstep
        intro e he
        rcases (mem_fsWrite _ _ _ _).mp he with h | h
        · exact hinv e (mem_of_mem_fsRemove _ _ _ h)
        · subst h
          push_neg at hm
          refine ⟨hd, fun m2 hm2 => ?_⟩
          rw [Option.some.injEq] at hm2
          show wav.data.length = m2
          omega

theorem convertSplitAux_inv (tfs : ℚ) (F : ℕ) (ml : Option ℕ)
    (outDir : String) (rps : ℕ) :
    ∀ (files : List WavFile) (i : ℕ) (fsys : FS) (count : ℕ) (fs1 : FS) (c1 : ℕ),
    (∀ e ∈ fsys, entryInv F ml e) →
    convertSplitAux tfs F ml outDir rps i files fsys count = Except.ok (fs1, c1) →
    ∀ e ∈ fs1, entryInv F ml e := by
  intro files
  induction files with
  | nil =>
    intro i fsys count fs1 c1 hinv h
    simp only [convertSplitAux, Except.ok.injEq, Prod.mk.injEq] at h
    obtain ⟨h1, _⟩ := h
    subst h1
    exact hinv
  | cons f rest ih =>
    intro i fsys count fs1 c1 hinv h
    simp only [convertSplitAux] at h
    cases hstep : convertStep tfs F ml outDir rps i f fsys with
    | error e =>
      simp only [hstep] at h
      cases h
    | ok fsmid =>
      simp only [hstep] at h
      exact ih (i + 1) fsmid (count + 1) fs1 c1
        (convertStep_inv tfs F ml outDir rps i f fsys fsmid hstep hinv) h

theorem noiseWriteLoop_inv (sig : List ℚ) (sl0 sl rps fb : ℕ) (dir : String) :
    ∀ (draws : List ℤ) (i : ℕ) (fsys : FS),
    (∀ e ∈ fsys, e.2.length = sl) →
    ∀ e ∈ noiseWriteLoop sig sl0 sl rps fb dir i draws fsys, e.2.length = sl := by
  intro draws
  induction draws with
  | nil =>
    intro i fsys hinv e he
    simp only [noiseWriteLoop] at he
    exact hinv e he
  | cons b rest ih =>
    intro i fsys hinv e he
    simp only [noiseWriteLoop] at he
    refine ih (i + 1) _ ?_ e he
    intro e2 he2
    rcases (mem_fsWrite _ _ _ _).mp he2 with h | h
    · exact hinv e2 (mem_of_mem_fsRemove _ _ _ h)
    · subst h
      exact resample_data_length _ _

/-- C8: after a successful run of the batch converter, every persisted
entry holds a whole multiple of `frame_size` samples, and exactly
`match_len` samples whenever that filter is active; every noise example
file written by `generate_noise_examples` holds exactly `sample_length`
samples. -/
theorem c8_persisted_sample_lengths
    (train test : List WavFile) (outDir : String) (testDir : Option String)
    (rps : ℕ) (tfs : ℚ) (F : ℕ) (ml : Option ℕ)
    (noise : List Int) (noiseFsRate noiseTfs : ℚ) (rps2 sl bi : ℕ)
    (ndir : String) (draws : List ℤ) :
    (∀ (fs1 : FS) (a b : ℕ),
      convert_wav_files_in_dir train test outDir testDir rps tfs F ml
          = Except.ok (fs1, a, b) →
      ∀ e ∈ fs1, F ∣ e.2.length ∧ ∀ m, ml = some m → e.2.length = m)
    ∧ (∀ (nfsys : FS),
      generate_noise_examples noise noiseFsRate noiseTfs rps2 sl ndir bi draws []
          = Except.ok nfsys →
      ∀ e ∈ nfsys, e.2.length = sl) := by
  constructor
  · intro fs1 a b h e he
    rw [convert_wav_files_in_dir] at h
    cases h1 : convertSplitAux tfs F ml outDir rps 0 train [] 0 with
    | error err =>
      simp only [h1] at h
      cases h
    | ok pr =>
      obtain ⟨fsA, cA⟩ := pr
      simp only [h1] at h
      have hA : ∀ e2 ∈ fsA, entryInv F ml e2 :=
        convertSplitAux_inv tfs F ml outDir rps train 0 [] 0 fsA cA
          (by intro e2 he2; cases he2) h1
      cases testDir with
      | none =>
        simp only [Except.ok.injEq, Prod.mk.injEq] at h
        obtain ⟨h2, _⟩ := h
        subst h2
        exact hA e he
      | some td =>
        cases h2 : convertSplitAux tfs F ml td rps 0 test fsA 0 with
        | error err =>
          simp only [h2] at h
          cases h
        | ok pr2 =>
          obtain ⟨fsB, cB⟩ := pr2
          simp only [h2, Except.ok.injEq, Prod.mk.injEq] at h
          obtain ⟨h3, _⟩ := h
          subst h3
          exact convertSplitAux_inv tfs F ml td rps test 0 fsA 0 fsB cB hA h2 e he
  · intro nfsys h e he
    simp only [generate_noise_examples] at h
    by_cases hmb : maxBeginIndex (read_as_floats noise).data.length
        (sampleLength0 sl noiseFsRate noiseTfs) ≤ 0
    · rw [if_pos hmb] at h
      cases h
    · rw [if_neg hmb, Except.ok.injEq] at h
      subst h
      exact noiseWriteLoop_inv _ _ _ _ _ _ draws 0 []
        (by intro e2 he2; cases he2) e he

/-- Witness for C8 at concrete inputs: one converted word file of 4 samples
(frame size 2, no match filter), and one noise example of 2 samples drawn
at offset 0 from a 3-sample recording. -/
theorem c8_witness :
    (∀ e ∈ ([(outPathOf "out" 500 0 "a.wav", [0, 0, 0, 0])] : FS),
        2 ∣ e.2.length ∧ ∀ m, (none : Option ℕ) = some m → e.2.length = m)
    ∧ (∀ e ∈ ([("noise" ++ "/" ++ natStr 0 ++ "/" ++ pad5 0 ++ ".dat",
          ([0, 0] : List ℚ))] : FS),
        e.2.length = 2) := by
  have hrun : convert_wav_files_in_dir [⟨"a.wav", 1, [0, 0, 0, 0]⟩] [] "out" none
      500 1 2 none
      = Except.ok ([(outPathOf "out" 500 0 "a.wav", [0, 0, 0, 0])], 1, 0) := by
    simp [convert_wav_files_in_dir, convertSplitAux, convertStep, convert,
      load_and_normalize_waveform, read_and_resample_as_floats, read_as_floats,
      resample, targetNumSamples, List.range_succ, fsWrite, fsRemove]
  have hgen : generate_noise_examples [0, 0, 0] 1 1 500 2 "noise" 0 [0] []
      = Except.ok [("noise" ++ "/" ++ natStr 0 ++ "/" ++ pad5 0 ++ ".dat",
          ([0, 0] : List ℚ))] := by
    norm_num [generate_noise_examples, noiseWriteLoop, sampleLength0,
      maxBeginIndex, read_as_floats, resample, List.range_succ, fsWrite,
      fsRemove, Int.toNat_ofNat, show Int.toNat 2 = 2 from rfl]
  exact ⟨(c8_persisted_sample_lengths [⟨"a.wav", 1, [0, 0, 0, 0]⟩] [] "out" none
      500 1 2 none [0, 0, 0] 1 1 500 2 0 "noise" [0]).1 _ 1 0 hrun,
    (c8_persisted_sample_lengths [⟨"a.wav", 1, [0, 0, 0, 0]⟩] [] "out" none
      500 1 2 none [0, 0, 0] 1 1 500 2 0 "noise" [0]).2 _ hgen⟩

/-- C2 counterexample: a word-label input `sample.wav` is written with
basename `sample.dat` — the stem of the input file name — not a five-digit
zero-padded index, refuting the claimed `<NNNNN>.dat` layout for word
files. -/
theorem c2_counterexample :
    convertStep 1 2 none "out/train/word" 500 0 ⟨"sample.wav", 1, [0, 0, 0, 0]⟩ []
      = Except.ok [("out/train/word" ++ "/" ++ natStr 0 ++ "/"
          ++ outputBasename "sample.wav", [0, 0, 0, 0])]
    ∧ outputBasename "sample.wav" = "sample.dat"
    ∧ isFiveDigitDat "sample.dat" = false := by
  refine ⟨?_, by decide, by decide⟩
  simp [convertStep, convert, load_and_normalize_waveform,
    read_and_resample_as_floats, read_as_floats, resample, targetNumSamples,
    List.range_succ, fsWrite, fsRemove, outPathOf]

theorem lastIndexOfDot_append_wav (cs : List Char) :
    lastIndexOfDot (cs ++ ['.', 'w', 'a', 'v']) = some cs.length := by
  induction cs with
  | nil => decide
  | cons c rest ih =>
    rw [List.cons_append]
    simp only [lastIndexOfDot, ih, List.length_cons]

theorem splitext_append_wav (stem : String) (hne : stem.toList ≠ [])
    (hnd : ∀ c ∈ stem.toList, c ≠ '.') :
    splitext (stem ++ ".wav") = (stem, ".wav") := by
  have htl : (stem ++ ".wav").toList = stem.toList ++ ['.', 'w', 'a', 'v'] :=
    String.data_append _ _
  have hcond : ¬(stem.toList.all (fun c => c = '.') = true) := by
    cases hc : stem.toList with
    | nil => exact absurd hc hne
    | cons c0 cr =>
      rw [List.all_cons, Bool.and_eq_true]
      intro hall
      have hc0 : c0 ∈ stem.toList := by rw [hc]; exact List.mem_cons_self _ _
      exact hnd c0 hc0 (by simpa using hall.1)
  simp only [splitext, htl, lastIndexOfDot_append_wav, List.take_left,
    List.drop_left]
  rw [if_neg hcond]
  rfl

theorem outputBasename_append_wav (stem : String) (hne : stem.toList ≠ [])
    (hnd : ∀ c ∈ stem.toList, c ≠ '.') :
    outputBasename (stem ++ ".wav") = stem ++ ".dat" := by
  simp only [outputBasename, splitext_append_wav stem hne hnd,
    show lowerStr ".wav" = ".wav" from by decide, if_true]

theorem digitChar_isDigit (d : ℕ) (h : d < 10) : (digitChar d).isDigit = true := by
  interval_cases d <;> decide

theorem decimalChars_length_le (n : ℕ) (h : n < 100000) :
    (decimalChars n).length ≤ 5 := by
  rw [decimalChars]
  by_cases h0 : n = 0
  · rw [if_pos h0]
    norm_num
  · rw [if_neg h0, List.length_map, List.length_reverse,
      Nat.digits_len 10 n (by norm_num) h0]
    have hlt : Nat.log 10 n < 5 := Nat.log_lt_of_lt_pow h0 (by omega)
    omega

theorem decimalChars_all_digits (n : ℕ) :
    ∀ c ∈ decimalChars n, c.isDigit = true := by
  intro c hc
  rw [decimalChars] at hc
  by_cases h0 : n = 0
  · rw [if_pos h0] at hc
    rw [List.mem_singleton] at hc
    subst hc
    decide
  · rw [if_neg h0, List.mem_map] at hc
    obtain ⟨d, hd, rfl⟩ := hc
    rw [List.mem_reverse] at hd
    exact digitChar_isDigit d (Nat.digits_lt_base (by norm_num) hd)

theorem pad5_toList (n : ℕ) :
    (pad5 n).toList
      = List.replicate (5 - (decimalChars n).length) '0' ++ decimalChars n := rfl

theorem pad5_length (n : ℕ) (h : n < 100000) : (pad5 n).toList.length = 5 := by
  rw [pad5_toList, List.length_append, List.length_replicate]
  have := decimalChars_length_le n h
  omega

theorem pad5_all_digits (n : ℕ) :
    ∀ c ∈ (pad5 n).toList, c.isDigit = true := by
  intro c hc
  rw [pad5_toList, List.mem_append] at hc
  rcases hc with h | h
  · rw [List.eq_of_mem_replicate h]
    decide
  · exact decimalChars_all_digits n c h

/-- C2 amended: the subfolder layout holds, but the basename of a
word-label output file is the input stem with extension `.dat` (for a
dot-free non-empty stem), while only noise example basenames are the
five-digit zero-padded `<NNNNN>.dat` (for indices below 100000). -/
theorem c2_amended_layout (outDir : String) (rps i idx : ℕ) (stem : String)
    (hne : stem.toList ≠ []) (hnd : ∀ c ∈ stem.toList, c ≠ '.')
    (hidx : idx < 100000) :
    outPathOf outDir rps i (stem ++ ".wav")
      = outDir ++ "/" ++ natStr (i / rps) ++ "/" ++ (stem ++ ".dat")
    ∧ isFiveDigitDat (pad5 idx ++ ".dat") = true := by
  constructor
  · rw [outPathOf, outputBasename_append_wav stem hne hnd]
  · have htl : (pad5 idx ++ ".dat").toList
        = (pad5 idx).toList ++ ['.', 'd', 'a', 't'] := String.data_append _ _
    have hlen : (pad5 idx).toList.length = 5 := pad5_length idx hidx
    rw [isFiveDigitDat]
    simp only [htl]
    rw [show (5 : ℕ) = (pad5 idx).toList.length from hlen.symm,
      List.take_left, List.drop_left]
    rw [Bool.and_eq_true, Bool.and_eq_true]
    refine ⟨⟨?_, ?_⟩, ?_⟩
    · rw [List.length_append, hlen]
      decide
    · rw [List.all_eq_true]
      exact pad5_all_digits idx
    · decide

/-- Witness for the amended C2 at a concrete input: stem `sample`, noise
index 7. -/
theorem c2_amended_witness :
    ("sample".toList ≠ [] ∧ (∀ c ∈ "sample".toList, c ≠ '.') ∧ 7 < 100000)
    ∧ (outPathOf "out" 500 0 ("sample" ++ ".wav")
        = "out" ++ "/" ++ natStr (0 / 500) ++ "/" ++ ("sample" ++ ".dat")
      ∧ isFiveDigitDat (pad5 7 ++ ".dat") = true) :=
  ⟨⟨by decide, by decide, by norm_num⟩,
   c2_amended_layout "out" 500 0 7 "sample" (by decide) (by decide) (by norm_num)⟩

/-- C9 counterexample: with `sample_length = 2`, `fs = 2`, `target_fs = 1`
the pre-resample window length is `W = ⌈2 / (1/2)⌉ = 4`; for a 7-sample
recording a full window fits at offset `L − W = 3` (`3 + 4 ≤ 7`), yet
`np.random.randint(0, max_begin_index = 3, ·)` never draws 3 — its upper
bound is exclusive — so not every offset in `{0, …, L − W}` is a possible
draw. -/
theorem c9_counterexample :
    maxBeginIndex 7 (sampleLength0 2 2 1) + sampleLength0 2 2 1 ≤ 7
    ∧ maxBeginIndex 7 (sampleLength0 2 2 1)
        ∉ randintSupport (maxBeginIndex 7 (sampleLength0 2 2 1)) := by
  have h : sampleLength0 2 2 1 = 4 := by
    rw [sampleLength0]
    norm_num
  have h2 : maxBeginIndex 7 (sampleLength0 2 2 1) = 3 := by
    rw [maxBeginIndex, h]
    norm_num
  constructor
  · rw [h2, h]
    norm_num
  · rw [h2, randintSupport, Finset.mem_Ico]
    norm_num

/-- C9 amended: the pre-resample window length is
`⌈sample_length · fs / target_fs⌉`; the start offsets are drawn uniformly
from `{0, …, L − W − 1}` (the support of `randint(0, L − W, ·)`, upper bound
exclusive) rather than `{0, …, L − W}`; and every noise example file written
holds exactly `sample_length` resampled samples. -/
theorem c9_amended_noise_draws (sl : ℕ) (fs tfs : ℚ) (L : ℕ)
    (hfs : 0 < fs) (htfs : 0 < tfs) :
    sampleLength0 sl fs tfs = ⌈(sl : ℚ) * fs / tfs⌉
    ∧ (∀ d : ℤ, d ∈ randintSupport (maxBeginIndex L (sampleLength0 sl fs tfs))
        ↔ 0 ≤ d ∧ d < (L : ℤ) - sampleLength0 sl fs tfs)
    ∧ (∀ (noiseIn : List Int) (rps2 bi : ℕ) (ndir : String) (draws : List ℤ)
        (nfsys : FS),
        generate_noise_examples noiseIn fs tfs rps2 sl ndir bi draws []
            = Except.ok nfsys →
        ∀ e ∈ nfsys, e.2.length = sl) := by
  refine ⟨?_, ?_, ?_⟩
  · rw [sampleLength0]
    congr 1
    rw [div_div_eq_mul_div]
  · intro d
    rw [randintSupport, Finset.mem_Ico, maxBeginIndex]
  · intro noiseIn rps2 bi ndir draws nfsys h e he
    simp only [generate_noise_examples] at h
    by_cases hmb : maxBeginIndex (read_as_floats noiseIn).data.length
        (sampleLength0 sl fs tfs) ≤ 0
    · rw [if_pos hmb] at h
      cases h
    · rw [if_neg hmb, Except.ok.injEq] at h
      subst h
      exact noiseWriteLoop_inv _ _ _ _ _ _ draws 0 []
        (by intro e2 he2; cases he2) e he

/-- Witness for the amended C9 at a concrete input: `sample_length = 2`,
rates 2 and 1, recording length 7. -/
theorem c9_amended_witness :
    (0:ℚ) < 2 ∧ (0:ℚ) < 1
    ∧ (sampleLength0 2 2 1 = ⌈((2:ℕ) : ℚ) * 2 / 1⌉
      ∧ (∀ d : ℤ, d ∈ randintSupport (maxBeginIndex 7 (sampleLength0 2 2 1))
          ↔ 0 ≤ d ∧ d < ((7:ℕ) : ℤ) - sampleLength0 2 2 1)
      ∧ (∀ (noiseIn : List Int) (rps2 bi : ℕ) (ndir : String) (draws : List ℤ)
          (nfsys : FS),
          generate_noise_examples noiseIn 2 1 rps2 2 ndir bi draws []
              = Except.ok nfsys →
          ∀ e ∈ nfsys, e.2.length = 2)) :=
  ⟨by norm_num, by norm_num,
   c9_amended_noise_draws 2 2 1 7 (by norm_num) (by norm_num)⟩

/-- C10: when the recording is not strictly longer than the pre-resample
window (`max_begin_index ≤ 0`), `generate_noise_examples` fails with
numpy's `randint` error before writing anything; when it is strictly
longer, every drawable offset yields a window that lies entirely inside the
signal and has the full pre-resample length. -/
theorem c10_noise_window_safety (noiseIn : List Int) (fs tfs : ℚ)
    (rps2 sl bi : ℕ) (ndir : String) (draws : List ℤ) (fsys : FS)
    (hfs : 0 < fs) (htfs : 0 < tfs) :
    (maxBeginIndex noiseIn.length (sampleLength0 sl fs tfs) ≤ 0 →
      generate_noise_examples noiseIn fs tfs rps2 sl ndir bi draws fsys
        = Except.error randintErrMsg)
    ∧ (0 < maxBeginIndex noiseIn.length (sampleLength0 sl fs tfs) →
      ∀ b ∈ randintSupport (maxBeginIndex noiseIn.length (sampleLength0 sl fs tfs)),
        (((read_as_floats noiseIn).data.drop b.toNat).take
            (sampleLength0 sl fs tfs).toNat).length
          = (sampleLength0 sl fs tfs).toNat
        ∧ b.toNat + (sampleLength0 sl fs tfs).toNat ≤ noiseIn.length) := by
  constructor
  · intro hmb
    simp only [generate_noise_examples, read_as_floats_data_length]
    rw [if_pos hmb]
  · intro _ b hb
    rw [randintSupport, Finset.mem_Ico] at hb
    obtain ⟨hb0, hblt⟩ := hb
    rw [maxBeginIndex] at hblt
    have hw : (0:ℤ) ≤ sampleLength0 sl fs tfs := by
      rw [sampleLength0]
      refine Int.ceil_nonneg ?_
      positivity
    constructor
    · rw [List.length_take, List.length_drop, read_as_floats_data_length]
      refine min_eq_left ?_
      omega
    · omega

/-- Witness for C10 at a concrete input: a 3-sample recording, window
length 2, a single draw at offset 0. -/
theorem c10_witness :
    (0:ℚ) < 1 ∧ (0:ℚ) < 1
    ∧ ((maxBeginIndex ([0, 0, 0] : List Int).length (sampleLength0 2 1 1) ≤ 0 →
        generate_noise_examples [0, 0, 0] 1 1 500 2 "noise" 0 [0] []
          = Except.error randintErrMsg)
      ∧ (0 < maxBeginIndex ([0, 0, 0] : List Int).length (sampleLength0 2 1 1) →
        ∀ b ∈ randintSupport
            (maxBeginIndex ([0, 0, 0] : List Int).length (sampleLength0 2 1 1)),
          (((read_as_floats [0, 0, 0]).data.drop b.toNat).take
              (sampleLength0 2 1 1).toNat).length
            = (sampleLength0 2 1 1).toNat
          ∧ b.toNat + (sampleLength0 2 1 1).toNat ≤ ([0, 0, 0] : List Int).length)) :=
  ⟨by norm_num, by norm_num,
   c10_noise_window_safety [0, 0, 0] 1 1 500 2 0 "noise" [0] []
     (by norm_num) (by norm_num)⟩

end PrepWavs
